import Mathlib

/-!
Verification of the product-image search repository.

The file embeds, as executable Lean definitions translated from the
TypeScript source, the per-retailer image resolution pipeline shared by the
interactive search page and the CSV batch page, the batch orchestrator loop,
the archive entry naming rule, and the image-proxy GET endpoint, and proves
the properties stated about them.
-/

/-- Boolean prefix test on strings, the translation of JS String.startsWith. -/
def strStartsWith (s p : String) : Bool := p.data.isPrefixOf s.data

/-- Boolean suffix test on strings, the translation of JS String.endsWith. -/
def strEndsWith (s p : String) : Bool := p.data.isSuffixOf s.data

theorem isPrefixOf_iff_exists {l₁ l₂ : List Char} :
    l₁.isPrefixOf l₂ = true ↔ ∃ t, l₂ = l₁ ++ t := by
  induction l₁ generalizing l₂ with
  | nil => simp [List.isPrefixOf]
  | cons a as ih =>
    cases l₂ with
    | nil => simp [List.isPrefixOf]
    | cons b bs =>
      simp only [List.isPrefixOf, Bool.and_eq_true, beq_iff_eq, ih, List.cons_append,
        List.cons.injEq]
      constructor
      · rintro ⟨rfl, t, rfl⟩; exact ⟨t, rfl, rfl⟩
      · rintro ⟨t, rfl, rfl⟩; exact ⟨rfl, t, rfl⟩

theorem isPrefixOf_append (l t : List Char) : l.isPrefixOf (l ++ t) = true :=
  isPrefixOf_iff_exists.mpr ⟨t, rfl⟩

theorem isSuffixOf_append (p l : List Char) : l.isSuffixOf (p ++ l) = true := by
  unfold List.isSuffixOf
  rw [List.reverse_append]
  exact isPrefixOf_append _ _

/-- One element of pagemap.cse_image in the parsed search response. -/
structure CseImage where
  src : String
deriving DecidableEq

/-- The pagemap of a search result item. -/
structure Pagemap where
  cse_image : Option (List CseImage)
deriving DecidableEq

/-- One item of the parsed search response. -/
structure Item where
  pagemap : Option Pagemap
deriving DecidableEq

/-- The parsed response of the custom search API (interface SearchResult). -/
structure SearchResult where
  items : Option (List Item)
deriving DecidableEq

/-- item.pagemap?.cse_image?.[0]?.src — the first candidate image URL of an
item; undefined anywhere along the chain collapses to none. -/
def firstCand (it : Item) : Option String :=
  match it.pagemap with
  | none => none
  | some pm =>
    match pm.cse_image with
    | none => none
    | some imgs =>
      match imgs with
      | [] => none
      | im :: _ => some im.src

/-- data.items, with the undefined case of the optional chain collapsed to the
empty list (both yield no match and no fallback candidate). -/
def itemsOf (d : SearchResult) : List Item := d.items.getD []

/-- data.items?.[0]?.pagemap?.cse_image?.[0]?.src. -/
def firstItemCand (d : SearchResult) : Option String :=
  match itemsOf d with
  | [] => none
  | it :: _ => firstCand it

/-- The JS pattern `if (x) return f(x);` followed by continuation k, where x is
an optional string and both undefined and the empty string are falsy. -/
def pick (o : Option String) (f : String → Option String) (k : Option String) : Option String :=
  match o with
  | some s => if s = "" then k else f s
  | none => k

/-- Preferred CDN of the Target branch. -/
def targetCdn : String := "https://target.scene7.com"

/-- The fixed quality parameters appended for Target. -/
def targetParams : String := "?qlt=65&fmt=webp&hei=1200&wid=1200"

/-- Preferred CDN of the Home Depot branch. -/
def thdCdn : String := "https://images.thdstatic"

/-- Preferred CDN host/path of the Lowes branch. -/
def lowesCdn : String := "https://mobileimages.lowes.com/productimages/"

/-- The predicate of the find calls: the item's first candidate image URL
starts with the given prefix (undefined candidates fail the test). -/
def candMatches (p : String) (it : Item) : Bool :=
  match firstCand it with
  | some s => strStartsWith s p
  | none => false

/-- The literal characters of the regex /size=[^&]+$/. -/
def sizePat : List Char := "size=".data

/-- [^&]+$ — the remainder of the string is non-empty and ampersand-free. -/
def sizeTail (l : List Char) : Bool := !l.isEmpty && !l.contains '&'

/-- The regex /size=[^&]+$/ matches starting at this position. -/
def sizeMatchAt (l : List Char) : Bool := sizePat.isPrefixOf l && sizeTail (l.drop 5)

/-- url.replace(/size=[^&]+$/, 'size=full') at the leftmost matching position;
none when the regex does not match (url.match(...) is null). -/
def lowesRewrite : List Char → Option (List Char)
  | [] => none
  | c :: cs =>
    if sizeMatchAt (c :: cs) then some "size=full".data
    else (lowesRewrite cs).map (fun r => c :: r)

/-- url.match(/size=[^&]+$/) is non-null. -/
def hasTrailingSize (s : String) : Bool := (lowesRewrite s.data).isSome

/-- url.replace(/size=[^&]+$/, 'size=full'). -/
def lowesReplace (s : String) : String :=
  match lowesRewrite s.data with
  | some l => String.mk l
  | none => s

/-- Appending the fixed Target quality parameters (identical at both call
sites: searchForImage in the csv page and handleSearch in the search page). -/
def targetPostProcess (s : String) : String := s ++ targetParams

/-- The store-dependent candidate selection and URL normalisation of
searchForImage (src/app/csv/page.tsx), applied to the parsed response; the
final fall-through is `return null`. -/
def resolve (store : String) (d : SearchResult) : Option String :=
  if store = "TARGET" then
    pick ((itemsOf d).find? (candMatches targetCdn) >>= firstCand)
      (fun s => some (targetPostProcess s)) none
  else if store = "HOMEDEPOT" then
    pick ((itemsOf d).find? (candMatches thdCdn) >>= firstCand) (fun s => some s)
      (pick (firstItemCand d) (fun s => some s) none)
  else if store = "BESTBUY" then
    pick (firstItemCand d) (fun s => some s) none
  else if store = "LOWES" then
    pick ((itemsOf d).find? (candMatches lowesCdn) >>= firstCand)
      (fun s => if hasTrailingSize s then some (lowesReplace s) else some s)
      (pick (firstItemCand d)
        (fun s =>
          if strStartsWith s lowesCdn && hasTrailingSize s then some (lowesReplace s)
          else some s)
        none)
  else none

/-- The foundImage selection of handleSearch on the interactive search page
(there is no Lowes branch there; an unrecognised store leaves foundImage
null). -/
def resolveHome (store : String) (d : SearchResult) : Option String :=
  if store = "TARGET" then
    (itemsOf d).find? (candMatches targetCdn) >>= firstCand
  else if store = "HOMEDEPOT" then
    match (itemsOf d).find? (candMatches thdCdn) >>= firstCand with
    | some s => if s = "" then firstItemCand d else some s
    | none => firstItemCand d
  else if store = "BESTBUY" then
    firstItemCand d
  else none

/-- The URL handleSearch forwards to the image proxy: Target receives the
fixed quality parameters, the other stores pass the found URL through
unchanged; a falsy foundImage is the "No matching image found" path. -/
def homeFinalUrl (store : String) (d : SearchResult) : Option String :=
  pick (resolveHome store d)
    (fun s => if store = "TARGET" then some (targetPostProcess s) else some s) none

/-- One parsed CSV row: an association of column names to string values
(a PapaParse object row; a column missing from the row is absent). -/
abbrev Row := List (String × String)

/-- row[c] — lookup of a column value, none when the column is undefined. -/
def getCol (row : Row) (c : String) : Option String :=
  (row.find? (fun p => p.1 == c)).map (fun p => p.2)

/-- The JS idiom `x || y` on an optional string: undefined and "" fall
through to y. -/
def orFalsy (o : Option String) (y : String) : String :=
  match o with
  | some s => if s = "" then y else s
  | none => y

/-- str.replace(/_/g, " "). -/
def underscoresToSpaces (s : String) : String :=
  String.mk (s.data.map (fun c => if c = '_' then ' ' else c))

/-- The archive entry name built in processCSV:
model_itemdesc_unitretail_brand.webp, each field read from the row with
|| defaults (Brand || Manufacturer || "") and underscores turned to spaces. -/
def filename (row : Row) : String :=
  underscoresToSpaces (orFalsy (getCol row "Model") "") ++ "_" ++
  underscoresToSpaces (orFalsy (getCol row "Item Description") "") ++ "_" ++
  underscoresToSpaces (orFalsy (getCol row "Unit Retail") "") ++ "_" ++
  underscoresToSpaces (orFalsy (getCol row "Brand") (orFalsy (getCol row "Manufacturer") "")) ++
  ".webp"

/-- The store → identifier-column mapping of processCSV; the empty string is
the unset mapping that raises the configuration error. -/
def idColumnName (store : String) : String :=
  if store = "TARGET" then "TCIN"
  else if store = "BESTBUY" then "Model"
  else if store = "HOMEDEPOT" then "Item Description"
  else if store = "LOWES" then "Model"
  else ""

/-- The query construction of the csv page (store-specific phrase prepended,
unknown store passes the identifier through). -/
def buildQuery (store id : String) : String :=
  if store = "TARGET" then "TARGET " ++ id
  else if store = "BESTBUY" then "BestBuy " ++ id
  else if store = "HOMEDEPOT" then "Home Depot " ++ id
  else if store = "LOWES" then "Lowes " ++ id
  else id

/-- The translation of JS String.prototype.trim: strip leading and trailing
whitespace. -/
def jsTrim (s : String) : String :=
  String.mk (((s.data.dropWhile Char.isWhitespace).reverse.dropWhile
    Char.isWhitespace).reverse)

/-- The row filter: row[idColumnName] && row[idColumnName].toString().trim()
!== "". -/
def validRow (col : String) (row : Row) : Bool :=
  match getCol row col with
  | none => false
  | some v => (!(v == "")) && (!(jsTrim v == ""))

/-- row[idColumnName].toString().trim(). -/
def rowId (col : String) (row : Row) : String := jsTrim ((getCol row col).getD "")

/-- A downloaded image blob: content type and payload bytes (as a string). -/
structure Blob where
  type : String
  content : String
deriving DecidableEq

/-- The two awaited external effects of the batch loop, as deterministic
response oracles: search is the custom-search HTTP call plus JSON parse
(error = a thrown failure, e.g. a non-ok response); fetchImage is the proxied
image download (error = network failure or a non-ok proxy response). -/
structure BatchEnv where
  search : String → Except String SearchResult
  fetchImage : String → Except String Blob

/-- searchForImage of the csv page: issue the search request and resolve the
parsed result; a request failure propagates as the thrown error. -/
def searchForImage (env : BatchEnv) (store query : String) : Except String (Option String) :=
  match env.search query with
  | .error e => .error e
  | .ok d => .ok (resolve store d)

/-- One entry of the output archive. -/
structure ZipEntry where
  name : String
  blob : Blob
deriving DecidableEq

/-- zip.file(name, blob): inserting an entry under an existing name replaces
it, otherwise the entry is appended. -/
def zipAdd (z : List ZipEntry) (e : ZipEntry) : List ZipEntry :=
  if z.any (fun x => x.name == e.name) then
    z.map (fun x => if x.name == e.name then e else x)
  else z ++ [e]

/-- The accumulated archive entries plus the trace of network calls issued
(search queries and proxied image downloads), in order. -/
structure BatchTrace where
  entries : List ZipEntry
  searchCalls : List String
  fetchCalls : List String
deriving DecidableEq

/-- The body of the per-row loop of processCSV: build the query, search,
download through the proxy, insert into the archive. Every per-row failure is
caught and the row skipped. -/
def processRow (env : BatchEnv) (store col : String) (acc : BatchTrace) (row : Row) :
    BatchTrace :=
  let q := buildQuery store (rowId col row)
  let acc1 : BatchTrace := { acc with searchCalls := acc.searchCalls ++ [q] }
  match searchForImage env store q with
  | .error _ => acc1
  | .ok none => acc1
  | .ok (some url) =>
    if url = "" then acc1
    else
      let acc2 : BatchTrace := { acc1 with fetchCalls := acc1.fetchCalls ++ [url] }
      match env.fetchImage url with
      | .error _ => acc2
      | .ok blob => { acc2 with entries := zipAdd acc2.entries ⟨filename row, blob⟩ }

/-- The mutable progress record of the batch run, as its final value. -/
structure ProcessingStatus where
  current : Nat
  total : Nat
  currentItem : String
  status : String
  message : String
  downloadUrl : Option String
deriving DecidableEq

/-- The observable outcome of a processCSV run: final status, archive
entries, and the trace of issued network calls. -/
structure BatchResult where
  status : ProcessingStatus
  entries : List ZipEntry
  searchCalls : List String
  fetchCalls : List String
deriving DecidableEq

/-- processCSV on successfully parsed rows (the Papa.parse complete
callback): identifier column selection, row filtering, the strictly
sequential per-row loop, zip generation. The thrown configuration and
validation errors are the catch branch that sets status "error". The object
URL of the generated zip blob is modelled by the fixed handle "zipUrl". -/
def processCSV (env : BatchEnv) (store : String) (rows : List Row) : BatchResult :=
  let col := idColumnName store
  if col = "" then
    { status := { current := 0, total := 0, currentItem := "", status := "error",
                  message := "Error: No column name defined for store: " ++ store,
                  downloadUrl := none },
      entries := [], searchCalls := [], fetchCalls := [] }
  else
    let valid := rows.filter (validRow col)
    if valid.length = 0 then
      { status := { current := 0, total := 0, currentItem := "", status := "error",
                    message := "Error: No valid " ++ col ++ " values found in the CSV",
                    downloadUrl := none },
        entries := [], searchCalls := [], fetchCalls := [] }
    else
      let tr := valid.foldl (processRow env store col) ⟨[], [], []⟩
      { status := { current := valid.length, total := valid.length, currentItem := "",
                    status := "complete",
                    message := "Processing complete! Your download is ready.",
                    downloadUrl := some "zipUrl" },
        entries := tr.entries, searchCalls := tr.searchCalls,
        fetchCalls := tr.fetchCalls }

/-- The numeric value of a hexadecimal digit (0-9, A-F, a-f). -/
def hexVal (c : Char) : Option Nat :=
  if c.isDigit then some (c.toNat - 48)
  else if c.toNat ≥ 65 ∧ c.toNat ≤ 70 then some (c.toNat - 55)
  else if c.toNat ≥ 97 ∧ c.toNat ≤ 102 then some (c.toNat - 87)
  else none

/-- Modelled from the spec: first pass of the ECMAScript decodeURIComponent
builtin (platform code, not part of the repository sources): literal
characters pass through, a %XX escape yields the byte XX, a malformed escape
raises URIError (none here). -/
def escTokens : List Char → Option (List (Sum Char Nat))
  | [] => some []
  | '%' :: a :: b :: rest =>
    match hexVal a, hexVal b with
    | some x, some y => (escTokens rest).map (fun r => Sum.inr (16 * x + y) :: r)
    | _, _ => none
  | '%' :: _ => none
  | c :: rest => (escTokens rest).map (fun r => Sum.inl c :: r)

/-- Modelled from the spec: second pass of decodeURIComponent — escape bytes
are combined as UTF-8 sequences (an invalid sequence raises URIError). -/
def combineTokens : List (Sum Char Nat) → Option (List Char)
  | [] => some []
  | Sum.inl c :: rest => (combineTokens rest).map (fun r => c :: r)
  | Sum.inr b1 :: rest =>
    if b1 < 128 then (combineTokens rest).map (fun r => Char.ofNat b1 :: r)
    else if b1 < 192 then none
    else if b1 < 224 then
      match rest with
      | Sum.inr b2 :: rest2 =>
        if 128 ≤ b2 ∧ b2 < 192 then
          (combineTokens rest2).map
            (fun r => Char.ofNat ((b1 - 192) * 64 + (b2 - 128)) :: r)
        else none
      | _ => none
    else if b1 < 240 then
      match rest with
      | Sum.inr b2 :: Sum.inr b3 :: rest2 =>
        if (128 ≤ b2 ∧ b2 < 192) ∧ (128 ≤ b3 ∧ b3 < 192) then
          (combineTokens rest2).map
            (fun r => Char.ofNat ((b1 - 224) * 4096 + (b2 - 128) * 64 + (b3 - 128)) :: r)
        else none
      | _ => none
    else if b1 < 248 then
      match rest with
      | Sum.inr b2 :: Sum.inr b3 :: Sum.inr b4 :: rest2 =>
        if (128 ≤ b2 ∧ b2 < 192) ∧ (128 ≤ b3 ∧ b3 < 192) ∧ (128 ≤ b4 ∧ b4 < 192) then
          (combineTokens rest2).map
            (fun r => Char.ofNat ((b1 - 240) * 262144 + (b2 - 128) * 4096 +
              (b3 - 128) * 64 + (b4 - 128)) :: r)
        else none
      | _ => none
    else none

/-- Modelled from the spec: decodeURIComponent (platform builtin, not in the
repository sources); none models the thrown URIError. -/
def decodeURIComp (s : String) : Option String :=
  (escTokens s.data >>= combineTokens).map String.mk

/-- Modelled from the spec: the URLSearchParams decoding that produces
searchParams.get('url') from the raw query-string value (platform builtin):
'+' becomes a space, a well-formed %XX escape becomes the byte's character, a
malformed escape stays literal. Multi-byte sequences are not combined here;
the inputs under study are ASCII. -/
def urlQueryDecode : List Char → List Char
  | [] => []
  | '+' :: rest => ' ' :: urlQueryDecode rest
  | '%' :: a :: b :: rest =>
    match hexVal a, hexVal b with
    | some x, some y => Char.ofNat (16 * x + y) :: urlQueryDecode rest
    | _, _ => '%' :: urlQueryDecode (a :: b :: rest)
  | c :: rest => c :: urlQueryDecode rest

/-- String form of urlQueryDecode. -/
def queryDecode (s : String) : String := String.mk (urlQueryDecode s.data)

/-- Outcome of the server-side fetch of the target URL: a thrown network
failure, or a response with status code, body bytes and an optional
content-type header; response.ok is 200 ≤ status < 300. -/
inductive FetchOutcome where
  | fail : FetchOutcome
  | resp (statusCode : Nat) (body : String) (contentType : Option String) : FetchOutcome
deriving DecidableEq

/-- Body of a proxy response: a JSON error object or the proxied bytes. -/
inductive ProxyBody where
  | jsonError (msg : String) : ProxyBody
  | bytes (buf : String) : ProxyBody
deriving DecidableEq

/-- The observable parts of the proxy's HTTP response. -/
structure ProxyResponse where
  statusCode : Nat
  body : ProxyBody
  contentType : Option String
  cacheControl : Option String
deriving DecidableEq

/-- The image-proxy GET handler (src/app/api/image-proxy/route.ts), with the
origin fetch as an oracle; the second component of the result is the list of
URLs actually fetched. searchParams.get('url') is the urlParam argument
(already query-decoded; none models both an absent parameter and, via the
empty string case, the falsy !imageUrl test). A URIError thrown by
decodeURIComponent lands in the handler's catch and yields the 500. -/
def proxyFetch (decodedUrl : String) (fetch : String → FetchOutcome) :
    ProxyResponse × List String :=
  match fetch decodedUrl with
  | FetchOutcome.fail =>
    (⟨500, ProxyBody.jsonError "Failed to fetch image", none, none⟩, [decodedUrl])
  | FetchOutcome.resp st body ct =>
    if 200 ≤ st ∧ st < 300 then
      (⟨200, ProxyBody.bytes body, some (ct.getD "image/webp"),
        some "public, max-age=86400"⟩, [decodedUrl])
    else
      (⟨500, ProxyBody.jsonError "Failed to fetch image", none, none⟩, [decodedUrl])

def GET (urlParam : Option String) (fetch : String → FetchOutcome) :
    ProxyResponse × List String :=
  match urlParam with
  | none => (⟨400, ProxyBody.jsonError "Missing image URL parameter", none, none⟩, [])
  | some imageUrl =>
    if imageUrl = "" then
      (⟨400, ProxyBody.jsonError "Missing image URL parameter", none, none⟩, [])
    else
      match decodeURIComp imageUrl with
      | none => (⟨500, ProxyBody.jsonError "Failed to fetch image", none, none⟩, [])
      | some decodedUrl =>
        if strStartsWith decodedUrl "https://" then proxyFetch decodedUrl fetch
        else
          (⟨400, ProxyBody.jsonError "Only HTTPS image URLs are supported", none, none⟩, [])

deriving instance DecidableEq for Except

theorem resolve_target (d : SearchResult) :
    resolve "TARGET" d =
      pick ((itemsOf d).find? (candMatches targetCdn) >>= firstCand)
        (fun s => some (targetPostProcess s)) none := rfl

theorem resolve_homedepot (d : SearchResult) :
    resolve "HOMEDEPOT" d =
      pick ((itemsOf d).find? (candMatches thdCdn) >>= firstCand) (fun s => some s)
        (pick (firstItemCand d) (fun s => some s) none) := rfl

theorem resolve_bestbuy (d : SearchResult) :
    resolve "BESTBUY" d = pick (firstItemCand d) (fun s => some s) none := rfl

theorem resolve_lowes (d : SearchResult) :
    resolve "LOWES" d =
      pick ((itemsOf d).find? (candMatches lowesCdn) >>= firstCand)
        (fun s => if hasTrailingSize s then some (lowesReplace s) else some s)
        (pick (firstItemCand d)
          (fun s =>
            if strStartsWith s lowesCdn && hasTrailingSize s then some (lowesReplace s)
            else some s)
          none) := rfl

theorem resolve_other (store : String) (d : SearchResult)
    (h1 : store ≠ "TARGET") (h2 : store ≠ "HOMEDEPOT") (h3 : store ≠ "BESTBUY")
    (h4 : store ≠ "LOWES") : resolve store d = none := by
  unfold resolve
  rw [if_neg h1, if_neg h2, if_neg h3, if_neg h4]

theorem resolveHome_target (d : SearchResult) :
    resolveHome "TARGET" d = (itemsOf d).find? (candMatches targetCdn) >>= firstCand := rfl

theorem resolveHome_homedepot (d : SearchResult) :
    resolveHome "HOMEDEPOT" d =
      match (itemsOf d).find? (candMatches thdCdn) >>= firstCand with
      | some s => if s = "" then firstItemCand d else some s
      | none => firstItemCand d := rfl

theorem resolveHome_bestbuy (d : SearchResult) :
    resolveHome "BESTBUY" d = firstItemCand d := rfl

theorem resolveHome_other (store : String) (d : SearchResult)
    (h1 : store ≠ "TARGET") (h2 : store ≠ "HOMEDEPOT") (h3 : store ≠ "BESTBUY") :
    resolveHome store d = none := by
  unfold resolveHome
  rw [if_neg h1, if_neg h2, if_neg h3]

theorem pick_eq_some {o : Option String} {f : String → Option String} {k : Option String}
    {u : String} (h : pick o f k = some u) :
    (∃ s, o = some s ∧ s ≠ "" ∧ f s = some u) ∨ k = some u := by
  cases o with
  | none => exact Or.inr h
  | some s =>
    by_cases hs : s = ""
    · subst hs
      simp only [pick, if_pos rfl] at h
      exact Or.inr h
    · simp only [pick, if_neg hs] at h
      exact Or.inl ⟨s, rfl, hs, h⟩

theorem pick_none_of {o : Option String} {f : String → Option String}
    (ho : o = none ∨ o = some "") : pick o f none = none := by
  rcases ho with h | h <;> simp [pick, h]

/-- Inversion of the find-then-extract chain of the preferred-prefix
branches. -/
theorem bindCand_eq_some {l : List Item} {p : String} {s : String}
    (h : l.find? (candMatches p) >>= firstCand = some s) :
    ∃ it, it ∈ l ∧ candMatches p it = true ∧ firstCand it = some s ∧
      strStartsWith s p = true := by
  rcases Option.bind_eq_some.mp h with ⟨it, hfind, hcand⟩
  have hmem := List.mem_of_find?_eq_some hfind
  have hp := List.find?_some hfind
  refine ⟨it, hmem, hp, hcand, ?_⟩
  unfold candMatches at hp
  rw [hcand] at hp
  exact hp

theorem strStartsWith_ne_empty {s p : String} (h : strStartsWith s p = true)
    (hp : p ≠ "") : s ≠ "" := by
  intro hs
  subst hs
  unfold strStartsWith at h
  rcases isPrefixOf_iff_exists.mp h with ⟨t, ht⟩
  have : p.data = [] := by
    have := List.append_eq_nil.mp ht.symm
    exact this.1
  exact hp (by cases p; simp_all)

theorem strStartsWith_append {s p : String} (t : String)
    (h : strStartsWith s p = true) : strStartsWith (s ++ t) p = true := by
  unfold strStartsWith at h ⊢
  rcases isPrefixOf_iff_exists.mp h with ⟨r, hr⟩
  rw [String.data_append, hr]
  exact isPrefixOf_iff_exists.mpr ⟨r ++ t.data, by simp⟩

theorem strStartsWith_trans_lowes {s : String}
    (h : strStartsWith s lowesCdn = true) : strStartsWith s "https://" = true := by
  unfold strStartsWith at h ⊢
  rcases isPrefixOf_iff_exists.mp h with ⟨r, hr⟩
  rw [hr]
  have : lowesCdn.data = "https://".data ++ "mobileimages.lowes.com/productimages/".data := by
    decide
  rw [this]
  exact isPrefixOf_iff_exists.mpr ⟨"mobileimages.lowes.com/productimages/".data ++ r, by simp⟩

theorem sizeMatchAt_ne {c : Char} (l : List Char) (hc : ('s' == c) = false) :
    sizeMatchAt (c :: l) = false := by
  have e : sizePat = 's' :: "ize=".data := by decide
  simp [sizeMatchAt, e, List.isPrefixOf, hc]

theorem sizeMatchAt_s {c : Char} (l : List Char) (hc : ('i' == c) = false) :
    sizeMatchAt ('s' :: c :: l) = false := by
  have e : sizePat = 's' :: 'i' :: "ze=".data := by decide
  simp [sizeMatchAt, e, List.isPrefixOf, hc]

theorem smh (l : List Char) : sizeMatchAt ('h' :: l) = false := sizeMatchAt_ne l (by decide)

theorem smt (l : List Char) : sizeMatchAt ('t' :: l) = false := sizeMatchAt_ne l (by decide)

theorem smp (l : List Char) : sizeMatchAt ('p' :: l) = false := sizeMatchAt_ne l (by decide)

theorem smcolon (l : List Char) : sizeMatchAt (':' :: l) = false :=
  sizeMatchAt_ne l (by decide)

theorem smslash (l : List Char) : sizeMatchAt ('/' :: l) = false :=
  sizeMatchAt_ne l (by decide)

theorem smscolon (l : List Char) : sizeMatchAt ('s' :: ':' :: l) = false :=
  sizeMatchAt_s l (by decide)

/-- A successful rewrite always produces a string ending in the replacement
text size=full. -/
theorem lowesRewrite_shape {l r : List Char} (h : lowesRewrite l = some r) :
    ∃ p, r = p ++ "size=full".data := by
  induction l generalizing r with
  | nil => simp [lowesRewrite] at h
  | cons c cs ih =>
    by_cases hm : sizeMatchAt (c :: cs) = true
    · rw [lowesRewrite, if_pos hm] at h
      exact ⟨[], (Option.some.injEq _ _ ▸ h).symm⟩
    · rw [lowesRewrite, if_neg hm] at h
      rcases Option.map_eq_some'.mp h with ⟨r', hr', rfl⟩
      rcases ih hr' with ⟨p, rfl⟩
      exact ⟨c :: p, rfl⟩

theorem sizeMatchAt_decomp {v : List Char} (hv : v ≠ []) (hc : v.contains '&' = false) :
    sizeMatchAt (sizePat ++ v) = true := by
  have hc' : '&' ∉ v := by simpa using hc
  unfold sizeMatchAt sizeTail
  rw [show (5 : Nat) = sizePat.length from rfl, List.drop_left]
  simp [isPrefixOf_append, hv, hc']

/-- The code's regex test url.match(/size=[^&]+$/) succeeds exactly when the
string decomposes as anything ++ size= ++ a non-empty ampersand-free tail. -/
theorem lowesRewrite_isSome_iff {l : List Char} :
    (lowesRewrite l).isSome = true ↔
      ∃ p v, l = p ++ sizePat ++ v ∧ v ≠ [] ∧ v.contains '&' = false := by
  induction l with
  | nil =>
    rw [show lowesRewrite [] = none from rfl]
    simp only [Option.isSome_none]
    apply iff_of_false (by simp)
    rintro ⟨p, v, h, hv, -⟩
    exact hv (List.append_eq_nil.mp h.symm).2
  | cons c cs ih =>
    by_cases hm : sizeMatchAt (c :: cs) = true
    · rw [lowesRewrite, if_pos hm]
      simp only [Option.isSome_some, true_iff]
      simp only [sizeMatchAt, Bool.and_eq_true] at hm
      obtain ⟨h1, h2⟩ := hm
      rcases isPrefixOf_iff_exists.mp h1 with ⟨t, ht⟩
      rw [ht, show (5 : Nat) = sizePat.length from rfl, List.drop_left] at h2
      simp only [sizeTail, Bool.and_eq_true, Bool.not_eq_true'] at h2
      obtain ⟨h3, h4⟩ := h2
      refine ⟨[], t, by simpa using ht, ?_, h4⟩
      simpa using h3
    · rw [lowesRewrite, if_neg hm]
      rw [Option.isSome_map']
      rw [ih]
      constructor
      · rintro ⟨p, v, rfl, hv, hc⟩
        exact ⟨c :: p, v, rfl, hv, hc⟩
      · rintro ⟨p, v, hl, hv, hc⟩
        cases p with
        | nil =>
          exfalso
          apply hm
          simp only [List.nil_append] at hl
          rw [hl]
          exact sizeMatchAt_decomp hv hc
        | cons a p' =>
          simp only [List.cons_append, List.cons.injEq] at hl
          exact ⟨p', v, hl.2, hv, hc⟩

/-- A rewrite of a string beginning with https:// keeps that prefix: the
leftmost size= match can only start past the scheme. -/
theorem lowesRewrite_https {l r : List Char}
    (hp : "https://".data.isPrefixOf l = true) (h : lowesRewrite l = some r) :
    "https://".data.isPrefixOf r = true := by
  rcases isPrefixOf_iff_exists.mp hp with ⟨t, rfl⟩
  have e : "https://".data =
      'h' :: 't' :: 't' :: 'p' :: 's' :: ':' :: '/' :: '/' :: [] := by decide
  rw [e] at h ⊢
  simp only [List.cons_append, List.nil_append] at h
  simp only [lowesRewrite, smh, smt, smp, smcolon, smslash, smscolon,
    Bool.false_eq_true, if_false, Option.map_map] at h
  rcases Option.map_eq_some'.mp h with ⟨r', -, hr⟩
  exact isPrefixOf_iff_exists.mpr ⟨r', by simp [← hr, Function.comp]⟩

/-- The chosen URL ends with a trailing size=(value) query parameter, stated
as a decomposition of the string. -/
def TrailingSize (s : String) : Prop :=
  ∃ p v, s.data = p ++ sizePat ++ v ∧ v ≠ [] ∧ v.contains '&' = false

theorem hasTrailingSize_iff {s : String} : hasTrailingSize s = true ↔ TrailingSize s :=
  lowesRewrite_isSome_iff

theorem lowesReplace_endsWith {s : String} (h : hasTrailingSize s = true) :
    strEndsWith (lowesReplace s) "size=full" = true := by
  unfold hasTrailingSize at h
  rcases Option.isSome_iff_exists.mp h with ⟨r, hr⟩
  unfold lowesReplace
  rw [hr]
  rcases lowesRewrite_shape hr with ⟨p, rfl⟩
  unfold strEndsWith
  exact isSuffixOf_append p _

theorem lowesReplace_of_none {s : String} (h : hasTrailingSize s = false) :
    lowesReplace s = s := by
  unfold hasTrailingSize at h
  have hr : lowesRewrite s.data = none := Option.not_isSome_iff_eq_none.mp (by simp [h])
  unfold lowesReplace
  rw [hr]

theorem lowesReplace_https {s : String} (h : strStartsWith s "https://" = true) :
    strStartsWith (lowesReplace s) "https://" = true := by
  unfold lowesReplace
  cases hr : lowesRewrite s.data with
  | none => exact h
  | some r => exact lowesRewrite_https h hr

/-- find? hits the element at index k when the predicate holds there and at
no earlier index. -/
theorem find?_eq_get {α : Type} (p : α → Bool) (l : List α) (k : Nat) (hk : k < l.length)
    (h1 : p (l.get ⟨k, hk⟩) = true)
    (h2 : ∀ j (hj : j < k), p (l.get ⟨j, Nat.lt_trans hj hk⟩) = false) :
    l.find? p = some (l.get ⟨k, hk⟩) := by
  induction l generalizing k with
  | nil => exact absurd hk (by simp)
  | cons a as ih =>
    cases k with
    | zero =>
      simp only [List.get] at h1
      rw [List.find?_cons_of_pos _ h1]
      rfl
    | succ k' =>
      have ha : p a = false := h2 0 (Nat.succ_pos k')
      rw [List.find?_cons_of_neg _ (by simp [ha])]
      simp only [List.get] at h1 ⊢
      exact ih k' (Nat.lt_of_succ_lt_succ hk) h1
        (fun j hj => h2 (j + 1) (Nat.succ_lt_succ hj))

/-- Every item's first candidate URL (when it has one) starts with https://,
as an executable test over the result set. -/
def allHttps (d : SearchResult) : Bool :=
  (itemsOf d).all
    (fun it =>
      match firstCand it with
      | some s => strStartsWith s "https://"
      | none => true)

theorem allHttps_cand {d : SearchResult} (h : allHttps d = true) {it : Item}
    (hmem : it ∈ itemsOf d) {s : String} (hc : firstCand it = some s) :
    strStartsWith s "https://" = true := by
  have := List.all_eq_true.mp h it hmem
  rw [hc] at this
  exact this

theorem allHttps_firstItemCand {d : SearchResult} (h : allHttps d = true) {s : String}
    (hc : firstItemCand d = some s) : strStartsWith s "https://" = true := by
  unfold firstItemCand at hc
  cases hl : itemsOf d with
  | nil => rw [hl] at hc; cases hc
  | cons it rest =>
    rw [hl] at hc
    exact allHttps_cand h (hl ▸ List.mem_cons_self it rest) hc

/-- No item of the result set carries a candidate image, as an executable
test (vacuously true of an empty result set). -/
def noCands (d : SearchResult) : Bool :=
  (itemsOf d).all (fun it => (firstCand it).isNone)

theorem noCands_find {d : SearchResult} (h : noCands d = true) (p : String) :
    (itemsOf d).find? (candMatches p) >>= firstCand = none := by
  have hfind : (itemsOf d).find? (candMatches p) = none := by
    rw [List.find?_eq_none]
    intro it hmem
    have := List.all_eq_true.mp h it hmem
    unfold candMatches
    rw [Option.isNone_iff_eq_none.mp this]
    simp
  rw [hfind]
  rfl

theorem noCands_firstItemCand {d : SearchResult} (h : noCands d = true) :
    firstItemCand d = none := by
  unfold firstItemCand
  cases hl : itemsOf d with
  | nil => rfl
  | cons it rest =>
    have := List.all_eq_true.mp h it (hl ▸ List.mem_cons_self it rest)
    exact Option.isNone_iff_eq_none.mp this

theorem pick_none (f : String → Option String) (k : Option String) : pick none f k = k := rfl

theorem pick_some_ne {s : String} (hs : s ≠ "") (f : String → Option String)
    (k : Option String) : pick (some s) f k = f s := by
  simp [pick, hs]

/-- An item whose pagemap carries a single candidate image URL. -/
def mkItem (s : String) : Item := ⟨some ⟨some [⟨s⟩]⟩⟩

/-- The result set of the C1 counterexample: a single item whose first
candidate is a relative, schemeless path. -/
def relData : SearchResult := ⟨some [mkItem "/relative/img.jpg"]⟩

/-- C1 counterexample: for retailer BESTBUY the fallback path returns the
first candidate verbatim, so a relative first candidate yields a non-absent
ResolvedImage that is not an absolute https:// URL. -/
theorem claim_c1_counterexample :
    resolve "BESTBUY" relData = some "/relative/img.jpg" ∧
    strStartsWith "/relative/img.jpg" "https://" = false :=
  ⟨by decide, by decide⟩

/-- C1 (amended): whenever every candidate first image URL in the result set
is an absolute https:// URL, every non-absent ResolvedImage — of the csv
resolver and of the interactive page — is an absolute https:// URL as well;
without that assumption the fallback paths return the first candidate
verbatim, with no URL-shape validation. -/
theorem claim_c1_amended (store : String) (d : SearchResult) (h : allHttps d = true)
    (u : String) :
    (resolve store d = some u → strStartsWith u "https://" = true) ∧
    (homeFinalUrl store d = some u → strStartsWith u "https://" = true) := by
  have hbind : ∀ (p : String) (s : String),
      (itemsOf d).find? (candMatches p) >>= firstCand = some s →
      strStartsWith s "https://" = true := by
    intro p s hs
    rcases bindCand_eq_some hs with ⟨it, hmem, -, hc, -⟩
    exact allHttps_cand h hmem hc
  have hrh : ∀ u, resolveHome store d = some u → strStartsWith u "https://" = true := by
    intro u hu
    by_cases h1 : store = "TARGET"
    · subst h1; rw [resolveHome_target] at hu; exact hbind _ _ hu
    · by_cases h2 : store = "HOMEDEPOT"
      · subst h2
        rw [resolveHome_homedepot] at hu
        cases hb : (itemsOf d).find? (candMatches thdCdn) >>= firstCand with
        | none =>
          rw [hb] at hu
          exact allHttps_firstItemCand h hu
        | some s =>
          rw [hb] at hu
          have hu' : (if s = "" then firstItemCand d else some s) = some u := hu
          by_cases hs : s = ""
          · rw [if_pos hs] at hu'; exact allHttps_firstItemCand h hu'
          · rw [if_neg hs] at hu'
            cases hu'
            exact hbind _ _ hb
      · by_cases h3 : store = "BESTBUY"
        · subst h3; rw [resolveHome_bestbuy] at hu; exact allHttps_firstItemCand h hu
        · rw [resolveHome_other store d h1 h2 h3] at hu; cases hu
  constructor
  · intro hu
    by_cases h1 : store = "TARGET"
    · subst h1
      rw [resolve_target] at hu
      rcases pick_eq_some hu with ⟨s, ho, -, hf⟩ | hk
      · cases hf
        exact strStartsWith_append _ (hbind _ _ ho)
      · cases hk
    · by_cases h2 : store = "HOMEDEPOT"
      · subst h2
        rw [resolve_homedepot] at hu
        rcases pick_eq_some hu with ⟨s, ho, -, hf⟩ | hk
        · cases hf; exact hbind _ _ ho
        · rcases pick_eq_some hk with ⟨s, ho, -, hf⟩ | hk2
          · cases hf; exact allHttps_firstItemCand h ho
          · cases hk2
      · by_cases h3 : store = "BESTBUY"
        · subst h3
          rw [resolve_bestbuy] at hu
          rcases pick_eq_some hu with ⟨s, ho, -, hf⟩ | hk
          · cases hf; exact allHttps_firstItemCand h ho
          · cases hk
        · by_cases h4 : store = "LOWES"
          · subst h4
            rw [resolve_lowes] at hu
            rcases pick_eq_some hu with ⟨s, ho, -, hf⟩ | hk
            · have hs := hbind _ _ ho
              by_cases ht : hasTrailingSize s = true
              · rw [if_pos ht] at hf
                cases hf
                exact lowesReplace_https hs
              · rw [if_neg ht] at hf
                cases hf
                exact hs
            · rcases pick_eq_some hk with ⟨s, ho, -, hf⟩ | hk2
              · have hs := allHttps_firstItemCand h ho
                by_cases hg : (strStartsWith s lowesCdn && hasTrailingSize s) = true
                · rw [if_pos hg] at hf
                  cases hf
                  exact lowesReplace_https hs
                · rw [if_neg hg] at hf
                  cases hf
                  exact hs
              · cases hk2
          · rw [resolve_other store d h1 h2 h3 h4] at hu; cases hu
  · intro hu
    unfold homeFinalUrl at hu
    rcases pick_eq_some hu with ⟨s, ho, -, hf⟩ | hk
    · have hs := hrh _ ho
      by_cases h1 : store = "TARGET"
      · rw [if_pos h1] at hf
        cases hf
        exact strStartsWith_append _ hs
      · rw [if_neg h1] at hf
        cases hf
        exact hs
    · cases hk

/-- C1 amended witness at a concrete all-https result set. -/
theorem claim_c1_amended_witness :
    allHttps relData = false ∧
    allHttps (SearchResult.mk (some [mkItem "https://a/b.jpg"])) = true ∧
    (resolve "BESTBUY" (SearchResult.mk (some [mkItem "https://a/b.jpg"])) =
        some "https://a/b.jpg" →
      strStartsWith "https://a/b.jpg" "https://" = true) :=
  ⟨by decide, by decide,
    (claim_c1_amended "BESTBUY" (SearchResult.mk (some [mkItem "https://a/b.jpg"]))
      (by decide) "https://a/b.jpg").1⟩

/-- C2: for retailer LOWES, a chosen URL with a trailing size=(value) query
parameter is rewritten by suffix substitution to end in size=full; a chosen
URL without the trailing parameter is returned unchanged; and on the fallback
path the rewrite is gated on the Lowes host/path prefix while on the
preferred path it is not. -/
theorem claim_c2 (d : SearchResult) (u : String) :
    ((itemsOf d).find? (candMatches lowesCdn) >>= firstCand = some u →
      (TrailingSize u →
        resolve "LOWES" d = some (lowesReplace u) ∧
        strEndsWith (lowesReplace u) "size=full" = true) ∧
      (¬ TrailingSize u → resolve "LOWES" d = some u))
    ∧ ((itemsOf d).find? (candMatches lowesCdn) >>= firstCand = none →
       firstItemCand d = some u → u ≠ "" →
       (strStartsWith u lowesCdn = false → resolve "LOWES" d = some u) ∧
       (strStartsWith u lowesCdn = true → TrailingSize u →
         resolve "LOWES" d = some (lowesReplace u))) := by
  constructor
  · intro hb
    have hne : u ≠ "" := by
      rcases bindCand_eq_some hb with ⟨-, -, -, -, hp⟩
      exact strStartsWith_ne_empty hp (by decide)
    have hreso : resolve "LOWES" d =
        (if hasTrailingSize u then some (lowesReplace u) else some u) := by
      rw [resolve_lowes, hb, pick_some_ne hne]
    constructor
    · intro ht
      have hts : hasTrailingSize u = true := hasTrailingSize_iff.mpr ht
      refine ⟨?_, lowesReplace_endsWith hts⟩
      rw [hreso, if_pos hts]
    · intro hnt
      have hts : hasTrailingSize u = false := by
        rw [← Bool.not_eq_true]
        exact fun hh => hnt (hasTrailingSize_iff.mp hh)
      rw [hreso, if_neg (by simp [hts])]
  · intro hb hfc hne
    have hreso : resolve "LOWES" d =
        (if strStartsWith u lowesCdn && hasTrailingSize u then some (lowesReplace u)
         else some u) := by
      rw [resolve_lowes, hb, pick_none, hfc, pick_some_ne hne]
    constructor
    · intro hpf
      rw [hreso, if_neg (by simp [hpf])]
    · intro hpf ht
      have hts : hasTrailingSize u = true := hasTrailingSize_iff.mpr ht
      rw [hreso, if_pos (by simp [hpf, hts])]

/-- The result set of the C2 witness: one item on the Lowes image CDN with a
trailing size=thumbnail parameter. -/
def lowesData : SearchResult :=
  ⟨some [mkItem "https://mobileimages.lowes.com/productimages/p.jpg?size=thumbnail"]⟩

/-- C2 witness at a concrete Lowes result set. -/
theorem claim_c2_witness :
    (itemsOf lowesData).find? (candMatches lowesCdn) >>= firstCand =
      some "https://mobileimages.lowes.com/productimages/p.jpg?size=thumbnail" ∧
    resolve "LOWES" lowesData =
      some (lowesReplace "https://mobileimages.lowes.com/productimages/p.jpg?size=thumbnail") ∧
    strEndsWith
      (lowesReplace "https://mobileimages.lowes.com/productimages/p.jpg?size=thumbnail")
      "size=full" = true := by
  have ht : TrailingSize "https://mobileimages.lowes.com/productimages/p.jpg?size=thumbnail" :=
    ⟨"https://mobileimages.lowes.com/productimages/p.jpg?".data, "thumbnail".data,
      by decide, by decide, by decide⟩
  have hb : (itemsOf lowesData).find? (candMatches lowesCdn) >>= firstCand =
      some "https://mobileimages.lowes.com/productimages/p.jpg?size=thumbnail" := by decide
  have h := ((claim_c2 lowesData
    "https://mobileimages.lowes.com/productimages/p.jpg?size=thumbnail").1 hb).1 ht
  exact ⟨hb, h.1, h.2⟩

/-- C3: for retailer TARGET both call sites scan items in order, return the
first candidate of the first item whose first candidate starts with the
target.scene7.com prefix with the fixed parameter string appended, and yield
absence when no item's first candidate matches — no fallback. -/
theorem claim_c3 (d : SearchResult) :
    ((∀ it ∈ itemsOf d, candMatches targetCdn it = false) →
      resolve "TARGET" d = none ∧ homeFinalUrl "TARGET" d = none)
    ∧ (∀ (k : Nat) (hk : k < (itemsOf d).length) (s : String),
        candMatches targetCdn ((itemsOf d).get ⟨k, hk⟩) = true →
        (∀ (j : Nat) (hj : j < k),
          candMatches targetCdn ((itemsOf d).get ⟨j, Nat.lt_trans hj hk⟩) = false) →
        firstCand ((itemsOf d).get ⟨k, hk⟩) = some s →
        resolve "TARGET" d = some (targetPostProcess s) ∧
        homeFinalUrl "TARGET" d = some (targetPostProcess s)) := by
  constructor
  · intro hall
    have hfind : (itemsOf d).find? (candMatches targetCdn) = none :=
      List.find?_eq_none.mpr (fun it hmem => by simp [hall it hmem])
    have hb : (itemsOf d).find? (candMatches targetCdn) >>= firstCand = none := by
      rw [hfind]; rfl
    constructor
    · rw [resolve_target, hb, pick_none]
    · unfold homeFinalUrl
      rw [resolveHome_target, hb, pick_none]
  · intro k hk s h1 h2 hs
    have hfind := find?_eq_get (candMatches targetCdn) (itemsOf d) k hk h1 h2
    have hb : (itemsOf d).find? (candMatches targetCdn) >>= firstCand = some s := by
      rw [hfind]
      exact hs
    have hne : s ≠ "" := by
      have hp : strStartsWith s targetCdn = true := by
        unfold candMatches at h1
        rw [hs] at h1
        exact h1
      exact strStartsWith_ne_empty hp (by decide)
    constructor
    · rw [resolve_target, hb, pick_some_ne hne]
    · unfold homeFinalUrl
      rw [resolveHome_target, hb, pick_some_ne hne, if_pos rfl]

/-- The result set of the C3 witness: a non-matching first item followed by a
matching second item. -/
def targetData : SearchResult :=
  ⟨some [mkItem "https://other.cdn/x.jpg", mkItem "https://target.scene7.com/y.jpg"]⟩

/-- C3 witness: the second item is selected and the fixed parameters are
appended, at both call sites. -/
theorem claim_c3_witness :
    resolve "TARGET" targetData = some (targetPostProcess "https://target.scene7.com/y.jpg") ∧
    homeFinalUrl "TARGET" targetData =
      some (targetPostProcess "https://target.scene7.com/y.jpg") :=
  (claim_c3 targetData).2 1 (by decide) "https://target.scene7.com/y.jpg"
    (by decide) (by decide) (by decide)

/-- C4: the retailer-A post-process transform appends the fixed parameter
string rather than merging it, so applying it twice differs from applying it
once — it is not idempotent. -/
theorem claim_c4 :
    ∃ u : String, targetPostProcess (targetPostProcess u) ≠ targetPostProcess u :=
  ⟨"https://target.scene7.com/img.jpg", by decide⟩

/-- C6: for every retailer tag (known or not), a result set with no items or
whose items carry no candidate image resolves to absence at both call sites;
absence is the ordinary none outcome of these total functions, not an
error. -/
theorem claim_c6 (store : String) (d : SearchResult) (h : noCands d = true) :
    resolve store d = none ∧ resolveHome store d = none ∧ homeFinalUrl store d = none := by
  have hb : ∀ p : String, (itemsOf d).find? (candMatches p) >>= firstCand = none :=
    noCands_find h
  have hf : firstItemCand d = none := noCands_firstItemCand h
  have hrh : resolveHome store d = none := by
    by_cases h1 : store = "TARGET"
    · subst h1; rw [resolveHome_target, hb]
    · by_cases h2 : store = "HOMEDEPOT"
      · subst h2
        rw [resolveHome_homedepot, hb]
        exact hf
      · by_cases h3 : store = "BESTBUY"
        · subst h3; rw [resolveHome_bestbuy]; exact hf
        · exact resolveHome_other store d h1 h2 h3
  refine ⟨?_, hrh, ?_⟩
  · by_cases h1 : store = "TARGET"
    · subst h1; rw [resolve_target, hb, pick_none]
    · by_cases h2 : store = "HOMEDEPOT"
      · subst h2; rw [resolve_homedepot, hb, hf, pick_none, pick_none]
      · by_cases h3 : store = "BESTBUY"
        · subst h3; rw [resolve_bestbuy, hf, pick_none]
        · by_cases h4 : store = "LOWES"
          · subst h4; rw [resolve_lowes, hb, hf, pick_none, pick_none]
          · exact resolve_other store d h1 h2 h3 h4
  · unfold homeFinalUrl
    rw [hrh, pick_none]

/-- C6 witness at the empty result set and at an itemless candidate. -/
theorem claim_c6_witness :
    noCands (SearchResult.mk (some [])) = true ∧
    resolve "LOWES" (SearchResult.mk (some [])) = none ∧
    resolveHome "LOWES" (SearchResult.mk (some [])) = none ∧
    homeFinalUrl "LOWES" (SearchResult.mk (some [])) = none :=
  ⟨by decide, claim_c6 "LOWES" (SearchResult.mk (some [])) (by decide)⟩

theorem processCSV_complete (env : BatchEnv) (store : String) (rows : List Row)
    (hcol : idColumnName store ≠ "")
    (hne : rows.filter (validRow (idColumnName store)) ≠ []) :
    processCSV env store rows =
      { status := { current := (rows.filter (validRow (idColumnName store))).length,
                    total := (rows.filter (validRow (idColumnName store))).length,
                    currentItem := "", status := "complete",
                    message := "Processing complete! Your download is ready.",
                    downloadUrl := some "zipUrl" },
        entries := ((rows.filter (validRow (idColumnName store))).foldl
          (processRow env store (idColumnName store)) ⟨[], [], []⟩).entries,
        searchCalls := ((rows.filter (validRow (idColumnName store))).foldl
          (processRow env store (idColumnName store)) ⟨[], [], []⟩).searchCalls,
        fetchCalls := ((rows.filter (validRow (idColumnName store))).foldl
          (processRow env store (idColumnName store)) ⟨[], [], []⟩).fetchCalls } := by
  simp only [processCSV]
  rw [if_neg hcol, if_neg (fun h => hne (List.length_eq_zero.mp h))]

theorem processCSV_error (env : BatchEnv) (store : String) (rows : List Row)
    (hcol : idColumnName store ≠ "")
    (hnil : rows.filter (validRow (idColumnName store)) = []) :
    processCSV env store rows =
      { status := { current := 0, total := 0, currentItem := "", status := "error",
                    message := "Error: No valid " ++ idColumnName store ++
                      " values found in the CSV",
                    downloadUrl := none },
        entries := [], searchCalls := [], fetchCalls := [] } := by
  simp only [processCSV]
  rw [if_neg hcol, if_pos (by rw [hnil]; rfl)]

/-- C7: rows whose identifier column is missing, empty or whitespace-only are
filtered out before the total count is set; when every row is filtered out —
in particular when the identifier column is absent from every row — the run
ends in the error state with no search and no image-fetch call issued. -/
theorem claim_c7 (env : BatchEnv) (store : String) (rows : List Row)
    (hcol : idColumnName store ≠ "") :
    (rows.filter (validRow (idColumnName store)) ≠ [] →
      (processCSV env store rows).status.total =
        (rows.filter (validRow (idColumnName store))).length)
    ∧ (rows.filter (validRow (idColumnName store)) = [] →
        (processCSV env store rows).status.status = "error" ∧
        (processCSV env store rows).searchCalls = [] ∧
        (processCSV env store rows).fetchCalls = [])
    ∧ ((∀ row ∈ rows, getCol row (idColumnName store) = none) →
        rows.filter (validRow (idColumnName store)) = []) := by
  refine ⟨?_, ?_, ?_⟩
  · intro hne
    rw [processCSV_complete env store rows hcol hne]
  · intro hnil
    rw [processCSV_error env store rows hcol hnil]
    exact ⟨rfl, rfl, rfl⟩
  · intro habs
    rw [List.filter_eq_nil_iff]
    intro row hrow
    simp [validRow, habs row hrow]

/-- An environment whose every external call fails. -/
def errEnv : BatchEnv := ⟨fun _ => .error "net", fun _ => .error "net"⟩

/-- C7 witness: a TARGET run over one row that lacks the TCIN column ends in
the error state with no network call. -/
theorem claim_c7_witness :
    idColumnName "TARGET" ≠ "" ∧
    (∀ row ∈ [[("Model", "X")]], getCol row (idColumnName "TARGET") = none) ∧
    [([("Model", "X")] : Row)].filter (validRow (idColumnName "TARGET")) = [] ∧
    (processCSV errEnv "TARGET" [[("Model", "X")]]).status.status = "error" ∧
    (processCSV errEnv "TARGET" [[("Model", "X")]]).searchCalls = [] ∧
    (processCSV errEnv "TARGET" [[("Model", "X")]]).fetchCalls = [] := by
  have h := claim_c7 errEnv "TARGET" [[("Model", "X")]] (by decide)
  have habs : ∀ row ∈ [[("Model", "X")]], getCol row (idColumnName "TARGET") = none := by
    decide
  have hnil := h.2.2 habs
  have herr := h.2.1 hnil
  exact ⟨by decide, habs, hnil, herr.1, herr.2.1, herr.2.2⟩

/-- C5: in a batch run over three valid rows where the search call of the
second row throws while rows one and three resolve, download and archive
successfully under distinct entry names, the failing row is skipped, the
archive holds exactly the two successful entries, and the final status is
complete, not error. -/
theorem claim_c5 (env : BatchEnv) (store : String) (r1 r2 r3 : Row)
    (u1 u3 msg : String) (b1 b3 : Blob)
    (hcol : idColumnName store ≠ "")
    (hv1 : validRow (idColumnName store) r1 = true)
    (hv2 : validRow (idColumnName store) r2 = true)
    (hv3 : validRow (idColumnName store) r3 = true)
    (h1 : searchForImage env store (buildQuery store (rowId (idColumnName store) r1)) =
      Except.ok (some u1))
    (hu1 : u1 ≠ "") (hf1 : env.fetchImage u1 = Except.ok b1)
    (h2 : searchForImage env store (buildQuery store (rowId (idColumnName store) r2)) =
      Except.error msg)
    (h3 : searchForImage env store (buildQuery store (rowId (idColumnName store) r3)) =
      Except.ok (some u3))
    (hu3 : u3 ≠ "") (hf3 : env.fetchImage u3 = Except.ok b3)
    (hnm : filename r1 ≠ filename r3) :
    (processCSV env store [r1, r2, r3]).entries =
      [⟨filename r1, b1⟩, ⟨filename r3, b3⟩] ∧
    (processCSV env store [r1, r2, r3]).entries.length = 2 ∧
    (processCSV env store [r1, r2, r3]).status.status = "complete" := by
  have hfilter : [r1, r2, r3].filter (validRow (idColumnName store)) = [r1, r2, r3] := by
    simp [List.filter, hv1, hv2, hv3]
  have hne : [r1, r2, r3].filter (validRow (idColumnName store)) ≠ [] := by
    rw [hfilter]
    simp
  have step1 : ∀ acc : BatchTrace,
      processRow env store (idColumnName store) acc r1 =
        { entries := zipAdd acc.entries ⟨filename r1, b1⟩,
          searchCalls := acc.searchCalls ++
            [buildQuery store (rowId (idColumnName store) r1)],
          fetchCalls := acc.fetchCalls ++ [u1] } := by
    intro acc
    simp only [processRow, h1, hf1, if_neg hu1]
  have step2 : ∀ acc : BatchTrace,
      processRow env store (idColumnName store) acc r2 =
        { acc with searchCalls := acc.searchCalls ++
            [buildQuery store (rowId (idColumnName store) r2)] } := by
    intro acc
    simp only [processRow, h2]
  have step3 : ∀ acc : BatchTrace,
      processRow env store (idColumnName store) acc r3 =
        { entries := zipAdd acc.entries ⟨filename r3, b3⟩,
          searchCalls := acc.searchCalls ++
            [buildQuery store (rowId (idColumnName store) r3)],
          fetchCalls := acc.fetchCalls ++ [u3] } := by
    intro acc
    simp only [processRow, h3, hf3, if_neg hu3]
  have e1 : zipAdd [] (ZipEntry.mk (filename r1) b1) = [⟨filename r1, b1⟩] := by
    simp [zipAdd]
  have e3 : zipAdd [⟨filename r1, b1⟩] (ZipEntry.mk (filename r3) b3) =
      [⟨filename r1, b1⟩, ⟨filename r3, b3⟩] := by
    simp [zipAdd, hnm]
  have hfold : ([r1, r2, r3].foldl (processRow env store (idColumnName store))
      ⟨[], [], []⟩).entries = [⟨filename r1, b1⟩, ⟨filename r3, b3⟩] := by
    simp only [List.foldl, step1, step2, step3]
    simp only [e1, e3]
  have hlen : ([r1, r2, r3].foldl (processRow env store (idColumnName store))
      ⟨[], [], []⟩).entries.length = 2 := by
    rw [hfold]
    rfl
  rw [processCSV_complete env store _ hcol hne]
  simp only [hfilter]
  exact ⟨hfold, hlen, trivial⟩

/-- The environment of the C5 witness: searching for row B throws, every
other search resolves to a fixed CDN image, every download succeeds. -/
def midFailEnv : BatchEnv :=
  ⟨fun q =>
    if q = "BestBuy B" then .error "API request failed with status 500"
    else .ok ⟨some [mkItem "https://cdn.example/x.jpg"]⟩,
   fun _ => .ok ⟨"image/webp", "bytes"⟩⟩

/-- C5 witness: a concrete three-row BESTBUY run whose middle search call
throws ends complete with exactly the two other entries. -/
theorem claim_c5_witness :
    validRow (idColumnName "BESTBUY") [("Model", "A")] = true ∧
    searchForImage midFailEnv "BESTBUY"
      (buildQuery "BESTBUY" (rowId (idColumnName "BESTBUY") [("Model", "B")])) =
      Except.error "API request failed with status 500" ∧
    filename [("Model", "A")] ≠ filename [("Model", "C")] ∧
    (processCSV midFailEnv "BESTBUY"
      [[("Model", "A")], [("Model", "B")], [("Model", "C")]]).entries =
      [⟨filename [("Model", "A")], ⟨"image/webp", "bytes"⟩⟩,
       ⟨filename [("Model", "C")], ⟨"image/webp", "bytes"⟩⟩] ∧
    (processCSV midFailEnv "BESTBUY"
      [[("Model", "A")], [("Model", "B")], [("Model", "C")]]).entries.length = 2 ∧
    (processCSV midFailEnv "BESTBUY"
      [[("Model", "A")], [("Model", "B")], [("Model", "C")]]).status.status =
      "complete" := by
  have h := claim_c5 midFailEnv "BESTBUY" [("Model", "A")] [("Model", "B")]
    [("Model", "C")] "https://cdn.example/x.jpg" "https://cdn.example/x.jpg"
    "API request failed with status 500" ⟨"image/webp", "bytes"⟩
    ⟨"image/webp", "bytes"⟩ (by decide) rfl rfl rfl rfl (by decide) rfl rfl rfl
    (by decide) rfl (by decide)
  exact ⟨rfl, rfl, by decide, h.1, h.2.1, h.2.2⟩

theorem zipAdd_mem {z : List ZipEntry} {e x : ZipEntry} (hx : x ∈ zipAdd z e) :
    x ∈ z ∨ x = e := by
  unfold zipAdd at hx
  by_cases h : z.any (fun y => y.name == e.name) = true
  · rw [if_pos h] at hx
    rcases List.mem_map.mp hx with ⟨y, hy, hxy⟩
    by_cases hn : (y.name == e.name) = true
    · rw [if_pos hn] at hxy
      exact Or.inr hxy.symm
    · rw [if_neg hn] at hxy
      exact Or.inl (hxy ▸ hy)
  · rw [if_neg h] at hx
    rcases List.mem_append.mp hx with h1 | h1
    · exact Or.inl h1
    · exact Or.inr (List.mem_singleton.mp h1)

theorem processRow_entries {env : BatchEnv} {store col : String} {acc : BatchTrace}
    {row : Row} {x : ZipEntry}
    (hx : x ∈ (processRow env store col acc row).entries) :
    x ∈ acc.entries ∨ x.name = filename row := by
  simp only [processRow] at hx
  split at hx
  · exact Or.inl hx
  · exact Or.inl hx
  · split at hx
    · exact Or.inl hx
    · split at hx
      · exact Or.inl hx
      · rcases zipAdd_mem hx with h1 | h1
        · exact Or.inl h1
        · exact Or.inr (by rw [h1])

theorem foldl_entries {env : BatchEnv} {store col : String} (rows : List Row)
    (acc : BatchTrace) {x : ZipEntry}
    (hx : x ∈ (rows.foldl (processRow env store col) acc).entries) :
    x ∈ acc.entries ∨ ∃ row ∈ rows, x.name = filename row := by
  induction rows generalizing acc with
  | nil => exact Or.inl hx
  | cons r rs ih =>
    simp only [List.foldl] at hx
    rcases ih _ hx with h | ⟨row, hrow, hname⟩
    · rcases processRow_entries h with h1 | h1
      · exact Or.inl h1
      · exact Or.inr ⟨r, List.mem_cons_self r rs, h1⟩
    · exact Or.inr ⟨row, List.mem_cons_of_mem _ hrow, hname⟩

/-- The claim's "joined by underscores" on a list of fields. -/
def joinUnderscore : List String → String
  | [] => ""
  | [s] => s
  | s :: rest => s ++ "_" ++ joinUnderscore rest

/-- The naming rule as the claim words it once amended: the four columns
Model, Item Description, Unit Retail, Brand in that order, underscores in
each field replaced by spaces, joined by underscores, with the fixed .webp
extension; a column without a non-empty value contributes the empty string,
and Brand falls back to Manufacturer when Brand is missing or empty. -/
def filenameSpec (row : Row) : String :=
  joinUnderscore
    [underscoresToSpaces (orFalsy (getCol row "Model") ""),
     underscoresToSpaces (orFalsy (getCol row "Item Description") ""),
     underscoresToSpaces (orFalsy (getCol row "Unit Retail") ""),
     underscoresToSpaces
       (orFalsy (getCol row "Brand") (orFalsy (getCol row "Manufacturer") ""))] ++
  ".webp"

/-- The claim's naming rule read literally: a missing column contributes the
empty string, and Brand falls back to Manufacturer only when the Brand
column is missing — a present-but-empty Brand value would be kept. -/
def filenameClaim (row : Row) : String :=
  joinUnderscore
    [underscoresToSpaces ((getCol row "Model").getD ""),
     underscoresToSpaces ((getCol row "Item Description").getD ""),
     underscoresToSpaces ((getCol row "Unit Retail").getD ""),
     underscoresToSpaces
       (match getCol row "Brand" with
        | some b => b
        | none => (getCol row "Manufacturer").getD "")] ++
  ".webp"

/-- The environment of the C9 counterexample and witness: every search
resolves and every download succeeds. -/
def brandEnv : BatchEnv :=
  ⟨fun _ => .ok ⟨some [mkItem "https://cdn.example/x.jpg"]⟩,
   fun _ => .ok ⟨"image/webp", "img"⟩⟩

/-- The row of the C9 counterexample: Brand is present but empty, and
Manufacturer carries a value. -/
def brandRow : Row := [("Model", "M"), ("Brand", ""), ("Manufacturer", "X")]

/-- C9 counterexample: with a present-but-empty Brand column the code's ||
chain substitutes Manufacturer, so the archive entry name disagrees with the
claim's literal rule at this row. -/
theorem claim_c9_counterexample :
    (processCSV brandEnv "BESTBUY" [brandRow]).entries.map ZipEntry.name =
      ["M___X.webp"] ∧
    filenameClaim brandRow = "M___.webp" ∧
    ("M___X.webp" : String) ≠ "M___.webp" :=
  ⟨by decide, by decide, by decide⟩

/-- C9 (amended): every archive entry name is the fixed four-field
composition Model, Item Description, Unit Retail, Brand — underscores in
each field replaced by spaces, fields joined by underscores, extension
.webp — where a column without a non-empty value contributes "" and Brand
falls back to Manufacturer when Brand is missing or empty. -/
theorem claim_c9_amended :
    (∀ row : Row, filename row = filenameSpec row)
    ∧ (∀ (env : BatchEnv) (store : String) (rows : List Row) (e : ZipEntry),
        e ∈ (processCSV env store rows).entries →
        ∃ row, row ∈ rows.filter (validRow (idColumnName store)) ∧
          e.name = filenameSpec row) := by
  have hfn : ∀ row : Row, filename row = filenameSpec row := by
    intro row
    simp only [filename, filenameSpec, joinUnderscore]
    simp [String.append_assoc]
  refine ⟨hfn, ?_⟩
  intro env store rows e he
  by_cases hcol : idColumnName store = ""
  · simp only [processCSV, if_pos hcol] at he
    cases he
  · by_cases hnil : rows.filter (validRow (idColumnName store)) = []
    · rw [processCSV_error env store rows hcol hnil] at he
      cases he
    · rw [processCSV_complete env store rows hcol hnil] at he
      rcases foldl_entries _ _ he with h | ⟨row, hrow, hname⟩
      · cases h
      · exact ⟨row, hrow, hname.trans (hfn row)⟩

/-- C9 witness: a concrete run whose single archive entry carries the
composed name of its (filtered-in) row. -/
theorem claim_c9_witness :
    (ZipEntry.mk "M___X.webp" ⟨"image/webp", "img"⟩ ∈
      (processCSV brandEnv "BESTBUY" [brandRow]).entries) ∧
    ∃ row, row ∈ [brandRow].filter (validRow (idColumnName "BESTBUY")) ∧
      "M___X.webp" = filenameSpec row :=
  ⟨by decide,
    claim_c9_amended.2 brandEnv "BESTBUY" [brandRow]
      (ZipEntry.mk "M___X.webp" ⟨"image/webp", "img"⟩) (by decide)⟩


theorem GET_decoded (u d : String) (f : String → FetchOutcome) (hu : u ≠ "")
    (hdec : decodeURIComp u = some d) :
    GET (some u) f =
      if strStartsWith d "https://" then proxyFetch d f
      else (⟨400, ProxyBody.jsonError "Only HTTPS image URLs are supported", none, none⟩,
        []) := by
  simp only [GET, if_neg hu]
  rw [hdec]

theorem proxyFetch_fail (d : String) (f : String → FetchOutcome)
    (hf : f d = FetchOutcome.fail) :
    proxyFetch d f =
      (⟨500, ProxyBody.jsonError "Failed to fetch image", none, none⟩, [d]) := by
  unfold proxyFetch
  rw [hf]

theorem proxyFetch_ok (d : String) (f : String → FetchOutcome) (st : Nat)
    (body : String) (ct : Option String) (hf : f d = FetchOutcome.resp st body ct)
    (hok : 200 ≤ st ∧ st < 300) :
    proxyFetch d f =
      (⟨200, ProxyBody.bytes body, some (ct.getD "image/webp"),
        some "public, max-age=86400"⟩, [d]) := by
  unfold proxyFetch
  rw [hf]
  exact if_pos hok

theorem proxyFetch_nok (d : String) (f : String → FetchOutcome) (st : Nat)
    (body : String) (ct : Option String) (hf : f d = FetchOutcome.resp st body ct)
    (hok : ¬(200 ≤ st ∧ st < 300)) :
    proxyFetch d f =
      (⟨500, ProxyBody.jsonError "Failed to fetch image", none, none⟩, [d]) := by
  unfold proxyFetch
  rw [hf]
  exact if_neg hok

/-- C8: the image-proxy GET endpoint returns 400 on a missing url parameter,
400 when the decoded target is not an https:// URL, a 200 carrying the
origin body with the origin content-type (image/webp when the origin reports
none) and the one-day cache directive on success, and 500 with an error body
on any fetch failure including a non-2xx origin response. -/
theorem claim_c8 (f : String → FetchOutcome) :
    ((GET none f).1 = ⟨400, ProxyBody.jsonError "Missing image URL parameter", none, none⟩)
    ∧ (∀ u d : String, u ≠ "" → decodeURIComp u = some d →
        strStartsWith d "https://" = false →
        (GET (some u) f).1 =
          ⟨400, ProxyBody.jsonError "Only HTTPS image URLs are supported", none, none⟩)
    ∧ (∀ (u d body : String) (ct : Option String) (st : Nat),
        u ≠ "" → decodeURIComp u = some d → strStartsWith d "https://" = true →
        f d = FetchOutcome.resp st body ct → 200 ≤ st → st < 300 →
        GET (some u) f =
          (⟨200, ProxyBody.bytes body, some (ct.getD "image/webp"),
            some "public, max-age=86400"⟩, [d]))
    ∧ (∀ u d : String, u ≠ "" → decodeURIComp u = some d →
        strStartsWith d "https://" = true →
        (f d = FetchOutcome.fail ∨
          ∃ st body ct, f d = FetchOutcome.resp st body ct ∧ ¬(200 ≤ st ∧ st < 300)) →
        (GET (some u) f).1.statusCode = 500 ∧
        (GET (some u) f).1.body = ProxyBody.jsonError "Failed to fetch image") := by
  refine ⟨rfl, ?_, ?_, ?_⟩
  · intro u d hu hdec hns
    rw [GET_decoded u d f hu hdec,
      if_neg (show ¬ strStartsWith d "https://" = true by simp [hns])]
  · intro u d body ct st hu hdec hps hresp h200 h300
    rw [GET_decoded u d f hu hdec, if_pos hps, proxyFetch_ok d f st body ct hresp
      (And.intro h200 h300)]
  · intro u d hu hdec hps hfail
    rw [GET_decoded u d f hu hdec, if_pos hps]
    rcases hfail with hfail | ⟨st, body, ct, hresp, hnok⟩
    · rw [proxyFetch_fail d f hfail]
      exact ⟨rfl, rfl⟩
    · rw [proxyFetch_nok d f st body ct hresp hnok]
      exact ⟨rfl, rfl⟩

/-- C8 witness: a concrete https target whose origin answers 200 with a png
content type. -/
theorem claim_c8_witness :
    decodeURIComp "https://host/img" = some "https://host/img" ∧
    strStartsWith "https://host/img" "https://" = true ∧
    GET (some "https://host/img")
        (fun _ => FetchOutcome.resp 200 "BYTES" (some "image/png")) =
      (⟨200, ProxyBody.bytes "BYTES", some "image/png",
        some "public, max-age=86400"⟩, ["https://host/img"]) :=
  ⟨by decide, by decide,
    (claim_c8 (fun _ => FetchOutcome.resp 200 "BYTES" (some "image/png"))).2.2.1
      "https://host/img" "https://host/img" "BYTES" (some "image/png") 200
      (by decide) (by decide) (by decide) rfl (by decide) (by decide)⟩

/-- Once the https check passes, the fetch is always issued at the decoded
URL and the response is never a 400. -/
theorem GET_fetch_log (u d : String) (hu : u ≠ "") (hdec : decodeURIComp u = some d)
    (hps : strStartsWith d "https://" = true) (f : String → FetchOutcome) :
    (GET (some u) f).2 = [d] ∧ (GET (some u) f).1.statusCode ≠ 400 := by
  rw [GET_decoded u d f hu hdec, if_pos hps]
  cases hf : f d with
  | fail =>
    rw [proxyFetch_fail d f hf]
    exact ⟨rfl, by simp⟩
  | resp st body ct =>
    by_cases hok : 200 ≤ st ∧ st < 300
    · rw [proxyFetch_ok d f st body ct hf hok]
      exact ⟨rfl, by simp⟩
    · rw [proxyFetch_nok d f st body ct hf hok]
      exact ⟨rfl, by simp⟩

/-- C10: the handler applies decodeURIComponent on top of the query-string
decoding already performed by searchParams.get, and both the https check and
the outgoing fetch use the double-decoded value: a singly percent-encoded
target is accepted as https, and a literal percent escape inside a valid
https target is decoded once more, so the fetched URL differs from the URL
the caller encoded. -/
theorem claim_c10 :
    (queryDecode "https%3A%2F%2Fhost%2Fimg" = "https://host/img"
      ∧ ∀ f : String → FetchOutcome,
          (GET (some (queryDecode "https%3A%2F%2Fhost%2Fimg")) f).2 =
            ["https://host/img"]
          ∧ (GET (some (queryDecode "https%3A%2F%2Fhost%2Fimg")) f).1.statusCode ≠ 400)
    ∧ (strStartsWith "https://host/a%20b" "https://" = true
      ∧ ("https://host/a b" : String) ≠ "https://host/a%20b"
      ∧ ∀ f : String → FetchOutcome,
          (GET (some "https://host/a%20b") f).2 = ["https://host/a b"]) := by
  have hq : queryDecode "https%3A%2F%2Fhost%2Fimg" = "https://host/img" := by decide
  refine ⟨⟨hq, ?_⟩, by decide, by decide, ?_⟩
  · intro f
    rw [hq]
    exact GET_fetch_log "https://host/img" "https://host/img" (by decide) (by decide)
      (by decide) f
  · intro f
    exact (GET_fetch_log "https://host/a%20b" "https://host/a b" (by decide) (by decide)
      (by decide) f).1
